import Mathlib

/-!
Verification of the Hubly support-chat / lead-management backend.

The definitions below are a shallow embedding of the backend's core:
the ticket sequencer (`getTicketID`), the lead/ticket engine
(`postNewLead`, `postLeadForm`, `putLeadMessage`, `putMessage`,
`putStatusUpdate`, `putLeadAssignee`, `foundMissedChats`, member deletion),
the analytics aggregator and the chatbot-settings update.  Stateful
controllers become explicit functions on an `EngineState`; JavaScript
numbers holding epoch milliseconds become `Nat`; fallible handlers return
the unchanged state together with an optional error code, mirroring the
`next(new CustomError(...))` early returns of the source.
-/

namespace Hubly

/-! ### Decimal rendering of natural numbers

JavaScript template literals stringify numbers in decimal.  `decDigits`
computes the decimal digits (most significant first) with explicit fuel so
that the definition is structural and kernel-evaluable; `natToDec n` is the
decimal string of `n`.
-/

def decDigits : Nat → Nat → List Nat
  | 0, _ => []
  | fuel + 1, n => if n = 0 then [] else decDigits fuel (n / 10) ++ [n % 10]

/-- The numeric value of a digit list (most significant digit first). -/
def decVal (ds : List Nat) : Nat := ds.foldl (fun a d => 10 * a + d) 0

def digitChar (d : Nat) : Char := Char.ofNat (48 + d)

def natToDec (n : Nat) : String :=
  if n = 0 then "0" else String.mk ((decDigits n n).map digitChar)

/-- The digit list that `natToDec` renders. -/
def decList (n : Nat) : List Nat := if n = 0 then [0] else decDigits n n

theorem decVal_append_singleton (ds : List Nat) (d : Nat) :
    decVal (ds ++ [d]) = 10 * decVal ds + d := by
  simp [decVal, List.foldl_append]

theorem decVal_cons_zero (ds : List Nat) : decVal (0 :: ds) = decVal ds := by
  simp [decVal]

theorem decVal_decDigits : ∀ fuel n : Nat, n ≤ fuel → decVal (decDigits fuel n) = n := by
  intro fuel
  induction fuel with
  | zero =>
    intro n hn
    have : n = 0 := Nat.le_zero.mp hn
    subst this
    simp [decDigits, decVal]
  | succ fuel ih =>
    intro n hn
    by_cases h0 : n = 0
    · subst h0; simp [decDigits, decVal]
    · have hdiv : n / 10 ≤ fuel := by
        have := Nat.div_lt_self (Nat.pos_of_ne_zero h0) (by norm_num : 1 < 10)
        omega
      simp only [decDigits, if_neg h0]
      rw [decVal_append_singleton, ih _ hdiv]
      omega

theorem decDigits_lt_ten : ∀ fuel n : Nat, ∀ d ∈ decDigits fuel n, d < 10 := by
  intro fuel
  induction fuel with
  | zero => intro n d hd; simp [decDigits] at hd
  | succ fuel ih =>
    intro n d hd
    by_cases h0 : n = 0
    · subst h0; simp [decDigits] at hd
    · simp only [decDigits, if_neg h0, List.mem_append, List.mem_singleton] at hd
      rcases hd with h | h
      · exact ih _ _ h
      · subst h; omega

theorem decVal_decList (n : Nat) : decVal (decList n) = n := by
  by_cases h : n = 0
  · subst h; simp [decList, decVal]
  · simp only [decList, if_neg h]
    exact decVal_decDigits n n le_rfl

theorem decList_lt_ten (n : Nat) : ∀ d ∈ decList n, d < 10 := by
  by_cases h : n = 0
  · subst h; intro d hd; simp [decList] at hd; omega
  · simp only [decList, if_neg h]
    exact decDigits_lt_ten n n

theorem natToDec_eq_decList (n : Nat) : natToDec n = String.mk ((decList n).map digitChar) := by
  by_cases h : n = 0
  · subst h; decide
  · simp [natToDec, decList, h]

theorem digitChar_inj : ∀ d < 10, ∀ e < 10, digitChar d = digitChar e → d = e := by decide

theorem map_digitChar_inj :
    ∀ xs ys : List Nat, (∀ d ∈ xs, d < 10) → (∀ d ∈ ys, d < 10) →
      xs.map digitChar = ys.map digitChar → xs = ys := by
  intro xs
  induction xs with
  | nil => intro ys _ _ h; cases ys <;> simp_all
  | cons x xs ih =>
    intro ys hx hy h
    cases ys with
    | nil => simp at h
    | cons y ys =>
      simp only [List.map_cons, List.cons.injEq] at h
      have hxy : x = y :=
        digitChar_inj x (hx x (by simp)) y (hy y (by simp)) h.1
      subst hxy
      rw [ih ys (fun d hd => hx d (by simp [hd])) (fun d hd => hy d (by simp [hd])) h.2]

theorem natToDec_inj : ∀ m n : Nat, natToDec m = natToDec n → m = n := by
  intro m n h
  rw [natToDec_eq_decList, natToDec_eq_decList] at h
  have hdata : (decList m).map digitChar = (decList n).map digitChar := by
    have := congrArg String.data h
    simpa using this
  have hlists := map_digitChar_inj _ _ (decList_lt_ten m) (decList_lt_ten n) hdata
  calc m = decVal (decList m) := (decVal_decList m).symm
    _ = decVal (decList n) := by rw [hlists]
    _ = n := decVal_decList n

/-! ### The ticket sequencer

Mirrors `getTicketID` of the lead controller: the base code is
`${fullYear}-${month > 9 ? month : '0' + month}${day > 9 ? day : '0' + day}`,
and while a lead with the candidate code exists, the candidate becomes
`${baseTicketID}-${suffix}` with `suffix = count > 9 ? count : '0' + count`
for `count = 1, 2, …`.  The persisted state is abstracted to the list of
ticket codes of the existing leads; the `while (foundLead)` loop becomes a
fuelled recursion with fuel `store.length + 1`, which the pigeonhole
argument below shows is always sufficient.
-/

def pad2 (n : Nat) : String := if n > 9 then natToDec n else "0" ++ natToDec n

def baseTicket (y m d : Nat) : String := natToDec y ++ "-" ++ pad2 m ++ pad2 d

/-- The `k`-th candidate probed by the sequencer: the base code for `k = 0`,
then the suffixed variants. -/
def probe (base : String) : Nat → String
  | 0 => base
  | k + 1 => base ++ "-" ++ pad2 (k + 1)

def ticketLoop (store : List String) (base : String) : Nat → Nat → Option String
  | 0, _ => none
  | fuel + 1, k =>
    if probe base k ∈ store then ticketLoop store base fuel (k + 1)
    else some (probe base k)

def getTicketID (store : List String) (y m d : Nat) : Option String :=
  ticketLoop store (baseTicket y m d) (store.length + 1) 0

theorem pad2_inj : ∀ m n : Nat, pad2 m = pad2 n → m = n := by
  have key : ∀ m n : Nat, m ≤ 9 → 9 < n → "0" ++ natToDec m ≠ natToDec n := by
    intro m n hm hn h
    rw [natToDec_eq_decList, natToDec_eq_decList] at h
    have hdata := congrArg String.data h
    simp only [String.data_append] at hdata
    have hmap : (0 :: decList m).map digitChar = (decList n).map digitChar := by
      simpa [digitChar] using hdata
    have hlists := map_digitChar_inj _ _
      (by intro d hd
          rcases List.mem_cons.mp hd with h | h
          · omega
          · exact decList_lt_ten m d h)
      (decList_lt_ten n) hmap
    have : decVal (0 :: decList m) = decVal (decList n) := by rw [hlists]
    rw [decVal_cons_zero, decVal_decList, decVal_decList] at this
    omega
  intro m n h
  by_cases hm : m > 9 <;> by_cases hn : n > 9
  · exact natToDec_inj m n (by simpa [pad2, hm, hn] using h)
  · exact absurd (by simpa [pad2, hm, hn] using h.symm) (key n m (by omega) hm)
  · exact absurd (by simpa [pad2, hm, hn] using h) (key m n (by omega) hn)
  · have h' : "0" ++ natToDec m = "0" ++ natToDec n := by simpa [pad2, hm, hn] using h
    have hdata := congrArg String.data h'
    simp only [String.data_append] at hdata
    have hcancel := List.append_cancel_left hdata
    exact natToDec_inj m n (String.ext hcancel)

theorem probe_inj (base : String) : Function.Injective (probe base) := by
  have hlen : ∀ k : Nat, base ≠ base ++ "-" ++ pad2 (k + 1) := by
    intro k h
    have := congrArg (fun s => s.data.length) h
    simp only [String.data_append, List.length_append] at this
    simp at this
    omega
  intro j k h
  match j, k with
  | 0, 0 => rfl
  | 0, k + 1 => exact absurd h (hlen k)
  | j + 1, 0 => exact absurd h.symm (hlen j)
  | j + 1, k + 1 =>
    have hdata := congrArg String.data h
    simp only [probe, String.data_append, List.append_assoc] at hdata
    have h2 := List.append_cancel_left hdata
    have h3 := List.append_cancel_left h2
    have := pad2_inj (j + 1) (k + 1) (String.ext h3)
    omega

theorem ticketLoop_none (store : List String) (base : String) :
    ∀ fuel k : Nat, ticketLoop store base fuel k = none →
      ∀ j < fuel, probe base (k + j) ∈ store := by
  intro fuel
  induction fuel with
  | zero => intro k _ j hj; omega
  | succ fuel ih =>
    intro k h j hj
    by_cases hmem : probe base k ∈ store
    · simp only [ticketLoop, if_pos hmem] at h
      match j with
      | 0 => simpa using hmem
      | j + 1 =>
        have := ih (k + 1) h j (by omega)
        simpa [Nat.add_assoc, Nat.add_comm 1 j] using this
    · simp [ticketLoop, hmem] at h

theorem ticketLoop_some (store : List String) (base : String) :
    ∀ fuel k : Nat, ∀ c : String, ticketLoop store base fuel k = some c →
      ∃ i, c = probe base (k + i) ∧ probe base (k + i) ∉ store ∧
        ∀ j < i, probe base (k + j) ∈ store := by
  intro fuel
  induction fuel with
  | zero => intro k c h; simp [ticketLoop] at h
  | succ fuel ih =>
    intro k c h
    by_cases hmem : probe base k ∈ store
    · simp only [ticketLoop, if_pos hmem] at h
      obtain ⟨i, hc, hnot, hall⟩ := ih (k + 1) c h
      refine ⟨i + 1, ?_, ?_, ?_⟩
      · simpa [Nat.add_assoc, Nat.add_comm 1 i] using hc
      · simpa [Nat.add_assoc, Nat.add_comm 1 i] using hnot
      · intro j hj
        match j with
        | 0 => simpa using hmem
        | j + 1 =>
          have := hall j (by omega)
          simpa [Nat.add_assoc, Nat.add_comm 1 j] using this
    · simp only [ticketLoop, if_neg hmem, Option.some.injEq] at h
      exact ⟨0, by simp [h], by simpa using hmem, by omega⟩

theorem getTicketID_isSome (store : List String) (y m d : Nat) :
    (getTicketID store y m d).isSome := by
  set base := baseTicket y m d with hbase
  rw [getTicketID]
  cases hloop : ticketLoop store base (store.length + 1) 0 with
  | some c => simp
  | none =>
    exfalso
    have hall := ticketLoop_none store base (store.length + 1) 0 hloop
    set pl : List String := (List.range (store.length + 1)).map (probe base) with hpl
    have hnd : pl.Nodup := (List.nodup_range _).map (probe_inj base)
    have hsub : pl ⊆ store := by
      intro x hx
      rw [hpl, List.mem_map] at hx
      obtain ⟨j, hj, rfl⟩ := hx
      rw [List.mem_range] at hj
      simpa using hall j hj
    have hcard1 : pl.toFinset.card = store.length + 1 := by
      rw [List.toFinset_card_of_nodup hnd, hpl, List.length_map, List.length_range]
    have hsub' : pl.toFinset ⊆ store.toFinset := by
      intro x hx
      rw [List.mem_toFinset] at hx ⊢
      exact hsub hx
    have := Finset.card_le_card hsub'
    have := List.toFinset_card_le store
    omega

theorem getTicketID_first_free (store : List String) (y m d : Nat) :
    ∃ k, getTicketID store y m d = some (probe (baseTicket y m d) k) ∧
      probe (baseTicket y m d) k ∉ store ∧
      ∀ j < k, probe (baseTicket y m d) j ∈ store := by
  have hsome := getTicketID_isSome store y m d
  rw [Option.isSome_iff_exists] at hsome
  obtain ⟨c, hc⟩ := hsome
  have hloop : ticketLoop store (baseTicket y m d) (store.length + 1) 0 = some c := hc
  obtain ⟨i, hci, hnot, hall⟩ := ticketLoop_some store (baseTicket y m d) _ 0 c hloop
  refine ⟨i, ?_, ?_, ?_⟩
  · rw [hc, hci]; simp
  · simpa using hnot
  · intro j hj; simpa using hall j hj

/-- Claim C3: for every persisted state and every date, the ticket sequencer
returns a code, obtained by probing the base code `YYYY-MMDD` and then the
suffixed variants `-01`, `-02`, … in order, and the returned code is the
first probe that no existing lead carries — in particular it is not already
assigned to any existing lead. -/
theorem getTicketID_spec (store : List String) (y m d : Nat) :
    ∃ k, getTicketID store y m d = some (probe (baseTicket y m d) k) ∧
      probe (baseTicket y m d) k ∉ store ∧
      ∀ j < k, probe (baseTicket y m d) j ∈ store :=
  getTicketID_first_free store y m d

/-- Claim C9 (amended): the sequencer never returns a code assigned to a
*currently existing* lead; once the owning lead is deleted its code leaves
the persisted state and may be issued again. -/
theorem getTicketID_not_in_store (store : List String) (y m d : Nat) (c : String)
    (h : getTicketID store y m d = some c) : c ∉ store := by
  obtain ⟨k, hk, hnot, -⟩ := getTicketID_first_free store y m d
  rw [h] at hk
  cases hk
  exact hnot

theorem getTicketID_not_in_store_witness : "2025-0101" ∉ (["2025-0707"] : List String) :=
  getTicketID_not_in_store ["2025-0707"] 2025 1 1 "2025-0101" (by decide)

/-! ### Data model

Documents of the Mongoose schemas.  Object ids become `Nat`; timestamps are
epoch milliseconds.  Optional schema fields are `Option`-typed.
-/

inductive Role where
  | Admin
  | Member
deriving DecidableEq

inductive LeadStatus where
  | Resolved
  | Unresolved
deriving DecidableEq

/-- The `sendBy` discriminator of a conversation turn. -/
inductive SendBy where
  | lead
  | member
deriving DecidableEq

/-- Error outcomes of a controller, mirroring the `RouteCode` classes used by
the `CustomError` early returns (a thrown `TypeError` surfaces as a generic
server error through the global handler). -/
inductive Err where
  | badRequest
  | notFound
  | unauthorized
  | conflict
  | expectationFailed
  | serverError
deriving DecidableEq

structure UserDoc where
  id : Nat
  role : Role
  parent : Option Nat
deriving DecidableEq

structure LeadDoc where
  id : Nat
  ticketID : String
  userName : Option String
  userEmail : Option String
  userPhone : Option String
  isMissedChat : Bool
  responseTime : Nat
  currentAssignee : Option Nat
  assigneeList : List Nat
  isFirstMessageShared : Bool
  isDetailsShared : Bool
  status : LeadStatus
  createdAt : Nat
deriving DecidableEq

structure ConvDoc where
  leadID : Nat
  message : String
  sendBy : SendBy
  assigneeID : Option Nat
  createdAt : Nat
deriving DecidableEq

structure TimerCfg where
  hour : Nat
  minute : Nat
  second : Nat
deriving DecidableEq

structure FormPlaceholderDoc where
  name : String
  email : String
  phone : String
  submitButton : String
deriving DecidableEq

structure SettingsDoc where
  headerColor : String
  backgroundColor : String
  customizedMessages : List String
  formPlaceholder : FormPlaceholderDoc
  welcomeMessage : String
  missedChatTimer : TimerCfg
deriving DecidableEq

/-- The persisted state the controllers act on: the `User`, `Lead`,
`LeadConversation` collections and the `ChatbotSettings` singleton. -/
structure EngineState where
  users : List UserDoc
  leads : List LeadDoc
  convs : List ConvDoc
  settings : Option SettingsDoc
deriving DecidableEq

def findLead (st : EngineState) (i : Nat) : Option LeadDoc :=
  st.leads.find? (fun l => l.id == i)

def findUser (st : EngineState) (i : Nat) : Option UserDoc :=
  st.users.find? (fun u => u.id == i)

/-- `User.findOne({ userRole: 'Admin' })`. -/
def findAdmin (st : EngineState) : Option UserDoc :=
  st.users.find? (fun u => u.role == Role.Admin)

/-- `foundLead.save()`: writes the mutated document back over the stored
document with the same id. -/
def saveLead (leads : List LeadDoc) (l : LeadDoc) : List LeadDoc :=
  leads.map (fun x => if x.id = l.id then l else x)

/-- `((hour * 60 * 60) + (minute * 60) + second) * 1000`. -/
def timerMsOf (t : TimerCfg) : Nat :=
  (t.hour * 60 * 60 + t.minute * 60 + t.second) * 1000

/-! ### Lead controller (visitor side) -/

/-- `postNewLead`: requires a message and an Admin, allocates a ticket code
through the sequencer, inserts the lead assigned to the Admin and appends the
first conversation turn.  The storage layer's `_id` generation is modelled by
rejecting an id already carried by an existing lead or referenced by a
logged conversation turn: MongoDB ObjectIds are never reissued, also not
after the owning lead has been deleted. -/
def postNewLead (st : EngineState) (newID : Nat) (message : String) (now y m d : Nat) :
    EngineState × Option Err :=
  if message = "" then (st, some Err.badRequest) else
  match findAdmin st with
  | none => (st, some Err.unauthorized)
  | some adm =>
    match getTicketID (st.leads.map (fun l => l.ticketID)) y m d with
    | none => (st, some Err.serverError)
    | some code =>
      if newID ∈ st.leads.map (fun l => l.id) ∨ newID ∈ st.convs.map (fun c => c.leadID)
      then (st, some Err.serverError)
      else
        let newLead : LeadDoc :=
          { id := newID, ticketID := code, userName := none, userEmail := none,
            userPhone := none, isMissedChat := false, responseTime := 0,
            currentAssignee := some adm.id, assigneeList := [adm.id],
            isFirstMessageShared := true, isDetailsShared := false,
            status := LeadStatus.Unresolved, createdAt := now }
        let newConv : ConvDoc :=
          { leadID := newID, message := message, sendBy := SendBy.lead,
            assigneeID := none, createdAt := now }
        ({ st with leads := st.leads ++ [newLead], convs := st.convs ++ [newConv] }, none)

/-- `postLeadForm`: overwrites the trimmed contact fields and marks the
details as shared. -/
def postLeadForm (st : EngineState) (leadID : Nat) (name email phone : String) :
    EngineState × Option Err :=
  if name = "" ∨ email = "" ∨ phone = "" then (st, some Err.badRequest) else
  match findLead st leadID with
  | none => (st, some Err.notFound)
  | some lead =>
    let lead1 : LeadDoc :=
      { lead with userName := some name.trim, userEmail := some email.trim,
                  userPhone := some phone.trim, isDetailsShared := true }
    ({ st with leads := saveLead st.leads lead1 }, none)

/-- `putLeadMessage`: appends a visitor-authored conversation turn; touches
neither `responseTime` nor `isMissedChat`. -/
def putLeadMessage (st : EngineState) (leadID : Nat) (message : String) (now : Nat) :
    EngineState × Option Err :=
  if message = "" then (st, some Err.badRequest) else
  match findLead st leadID with
  | none => (st, some Err.notFound)
  | some lead =>
    let newConv : ConvDoc :=
      { leadID := lead.id, message := message, sendBy := SendBy.lead,
        assigneeID := none, createdAt := now }
    ({ st with convs := st.convs ++ [newConv] }, none)

/-! ### Chat controller (staff side) -/

/-- The first side effect of `putMessage`: on the first staff reply
(`responseTime === 0`) stamp `responseTime = Math.floor((now - createdAt) / 1000)`. -/
def stampResponseTime (lead : LeadDoc) (now : Nat) : LeadDoc :=
  if lead.responseTime = 0 then
    { lead with responseTime := (now - lead.createdAt) / 1000 }
  else lead

/-- The second side effect of `putMessage`: if the missed-chat timer is
positive and the elapsed milliseconds since creation exceed it, set
`isMissedChat`. -/
def stampMissedChat (cfg : SettingsDoc) (lead : LeadDoc) (elapsedMs : Nat) : LeadDoc :=
  if 0 < timerMsOf cfg.missedChatTimer ∧ timerMsOf cfg.missedChatTimer < elapsedMs then
    { lead with isMissedChat := true }
  else lead

/-- `putMessage`: only the current assignee may post.  The response-time
stamp and the missed-chat stamp are applied to the found lead, the lead is
saved and a `Member` conversation turn appended.  A missing authenticated
user or a `null` `currentAssignee` surfaces as a server error (`.toString()`
on `undefined`/`null` throws). -/
def putMessage (st : EngineState) (userID leadID : Nat) (message : String) (now : Nat) :
    EngineState × Option Err :=
  if message = "" then (st, some Err.badRequest) else
  match findUser st userID with
  | none => (st, some Err.serverError)
  | some user =>
    match findLead st leadID with
    | none => (st, some Err.notFound)
    | some lead =>
      match lead.currentAssignee with
      | none => (st, some Err.serverError)
      | some assignee =>
        if assignee ≠ user.id then (st, some Err.unauthorized)
        else
          match st.settings with
          | none => (st, some Err.notFound)
          | some cfg =>
            let lead2 := stampMissedChat cfg (stampResponseTime lead now) (now - lead.createdAt)
            let newConv : ConvDoc :=
              { leadID := lead.id, message := message, sendBy := SendBy.member,
                assigneeID := some user.id, createdAt := now }
            ({ st with leads := saveLead st.leads lead2,
                       convs := st.convs ++ [newConv] }, none)

theorem stampResponseTime_id (lead : LeadDoc) (now : Nat) :
    (stampResponseTime lead now).id = lead.id := by
  unfold stampResponseTime; split <;> rfl

theorem stampResponseTime_createdAt (lead : LeadDoc) (now : Nat) :
    (stampResponseTime lead now).createdAt = lead.createdAt := by
  unfold stampResponseTime; split <;> rfl

theorem stampResponseTime_flag (lead : LeadDoc) (now : Nat) :
    (stampResponseTime lead now).isMissedChat = lead.isMissedChat := by
  unfold stampResponseTime; split <;> rfl

theorem stampResponseTime_rt_ne (lead : LeadDoc) (now : Nat)
    (h : lead.responseTime ≠ 0) :
    (stampResponseTime lead now).responseTime = lead.responseTime := by
  unfold stampResponseTime
  rw [if_neg h]

theorem stampMissedChat_id (cfg : SettingsDoc) (lead : LeadDoc) (ms : Nat) :
    (stampMissedChat cfg lead ms).id = lead.id := by
  unfold stampMissedChat; split <;> rfl

theorem stampMissedChat_createdAt (cfg : SettingsDoc) (lead : LeadDoc) (ms : Nat) :
    (stampMissedChat cfg lead ms).createdAt = lead.createdAt := by
  unfold stampMissedChat; split <;> rfl

theorem stampMissedChat_rt (cfg : SettingsDoc) (lead : LeadDoc) (ms : Nat) :
    (stampMissedChat cfg lead ms).responseTime = lead.responseTime := by
  unfold stampMissedChat; split <;> rfl

theorem stampMissedChat_flag_mono (cfg : SettingsDoc) (lead : LeadDoc) (ms : Nat)
    (h : lead.isMissedChat = true) :
    (stampMissedChat cfg lead ms).isMissedChat = true := by
  unfold stampMissedChat
  split
  · rfl
  · exact h

/-- `putStatusUpdate`: only the current assignee may change the status; no
constraint on the transition itself. -/
def putStatusUpdate (st : EngineState) (userID leadID : Nat) (status : LeadStatus) :
    EngineState × Option Err :=
  match findUser st userID with
  | none => (st, some Err.serverError)
  | some user =>
    match findLead st leadID with
    | none => (st, some Err.notFound)
    | some lead =>
      match lead.currentAssignee with
      | none => (st, some Err.serverError)
      | some assignee =>
        if assignee ≠ user.id then (st, some Err.unauthorized)
        else ({ st with leads := saveLead st.leads { lead with status := status } }, none)

/-- A hydrated `ObjectId` as JavaScript sees it: a value together with the
identity of the object holding it.  Two documents hydrated by two separate
queries always hold two distinct `ObjectId` instances, so `!==` between them
is reference inequality, not value inequality. -/
structure JsObjectId where
  val : Nat
  ref : Nat
deriving DecidableEq

/-- JavaScript strict equality on two `ObjectId` objects: same reference. -/
def jsStrictEq (a b : JsObjectId) : Bool := a.ref == b.ref

/-- `putLeadAssignee`: the admin gate is
`if (!foundAdmin || foundUser._id !== foundAdmin._id)`.  `foundUser` and
`foundAdmin` come from two separate queries, so their `_id` fields are two
distinct `ObjectId` allocations (modelled by the reference tags 0 and 1) and
the strict comparison never identifies them, even when the requester *is*
the admin.  The reassignment branch below the gate is therefore dead. -/
def putLeadAssignee (st : EngineState) (userID : Nat) (leadID assigneeID : Option Nat) :
    EngineState × Option Err :=
  match leadID, assigneeID with
  | some lid, some aid =>
    (match findUser st userID with
     | none => (st, some Err.serverError)
     | some user =>
       match findAdmin st with
       | none => (st, some Err.unauthorized)
       | some adm =>
         if jsStrictEq { val := user.id, ref := 0 } { val := adm.id, ref := 1 } = false then
           (st, some Err.unauthorized)
         else
           match findLead st lid with
           | none => (st, some Err.notFound)
           | some lead =>
             match findUser st aid with
             | none => (st, some Err.notFound)
             | some assignee =>
               let lead1 : LeadDoc :=
                 { lead with currentAssignee := some assignee.id,
                             assigneeList := assignee.id :: lead.assigneeList }
               ({ st with leads := saveLead st.leads lead1 }, none))
  | _, _ => (st, some Err.conflict)

/-- The per-lead effect of the `foundMissedChats` sweep: the `updateMany`
matches `responseTime: 0`, `isMissedChat: false`,
`createdAt: { $lt: now - missedTimerMs }` and sets `isMissedChat`. -/
def sweepLead (t : TimerCfg) (now : Nat) (l : LeadDoc) : LeadDoc :=
  if l.responseTime = 0 ∧ l.isMissedChat = false ∧ l.createdAt < now - timerMsOf t then
    { l with isMissedChat := true }
  else l

/-- `foundMissedChats`: reads the settings, and when the missed-chat timer is
positive flags every matching lead. -/
def foundMissedChats (st : EngineState) (now : Nat) : EngineState × Option Err :=
  match st.settings with
  | none => (st, some Err.notFound)
  | some cfg =>
    if 0 < timerMsOf cfg.missedChatTimer then
      ({ st with leads := st.leads.map (sweepLead cfg.missedChatTimer now) }, none)
    else (st, none)

/-! ### User deletion

The `userSchema.pre('deleteOne')` reassignment hook is registered *after*
`mongoose.model('User', userSchema)` has compiled the model, and the
`leadSchema.pre('deleteOne')` conversation cascade after
`mongoose.model('Lead', leadSchema)`; Mongoose middleware added after model
compilation never fires.  Deletion therefore removes only the targeted
document: no lead or conversation is reassigned, and a deleted lead's turns
stay behind.  (Even a live reassignment hook would fail: its
`$pull`/`$addToSet` pair targets the same `assigneeList` path, a conflicting
MongoDB update.)
-/

/-- `deleteMember`: only a Member whose parent is the requesting admin can be
deleted.  `validatUser.deleteOne()` removes the user document and nothing
else — the dead `pre('deleteOne')` hook performs no reassignment, so leads
and conversation turns keep referencing the deleted member.  A `null` parent
throws on `.toString()` (server error). -/
def deleteMember (st : EngineState) (requesterID : Nat) (memberID : Option Nat) :
    EngineState × Option Err :=
  match memberID with
  | none => (st, some Err.conflict)
  | some mid =>
    match findUser st mid with
    | none => (st, some Err.notFound)
    | some member =>
      if member.role = Role.Admin then (st, some Err.unauthorized)
      else
        match member.parent with
        | none => (st, some Err.serverError)
        | some parentID =>
          if parentID ≠ requesterID then (st, some Err.unauthorized)
          else ({ st with users := st.users.filter (fun u => u.id ≠ mid) }, none)

/-- `lead.deleteOne()`: removes the lead document.  The
`leadSchema.pre('deleteOne')` conversation cascade is registered after the
model is compiled and never fires, so the lead's conversation turns are left
behind. -/
def deleteLeadOne (st : EngineState) (leadID : Nat) : EngineState :=
  { st with leads := st.leads.filter (fun l => l.id ≠ leadID) }

/-! ### The engine as a transition system -/

inductive Op where
  | createLead (newID : Nat) (message : String) (now y m d : Nat)
  | leadForm (leadID : Nat) (name email phone : String)
  | visitorMessage (leadID : Nat) (message : String) (now : Nat)
  | staffMessage (userID leadID : Nat) (message : String) (now : Nat)
  | statusUpdate (userID leadID : Nat) (status : LeadStatus)
  | reassign (userID leadID assigneeID : Nat)
  | sweep (now : Nat)
  | deleteLead (leadID : Nat)
deriving DecidableEq

def step (st : EngineState) : Op → EngineState
  | Op.createLead newID message now y m d => (postNewLead st newID message now y m d).1
  | Op.leadForm leadID name email phone => (postLeadForm st leadID name email phone).1
  | Op.visitorMessage leadID message now => (putLeadMessage st leadID message now).1
  | Op.staffMessage userID leadID message now => (putMessage st userID leadID message now).1
  | Op.statusUpdate userID leadID status => (putStatusUpdate st userID leadID status).1
  | Op.reassign userID leadID assigneeID =>
      (putLeadAssignee st userID (some leadID) (some assigneeID)).1
  | Op.sweep now => (foundMissedChats st now).1
  | Op.deleteLead leadID => deleteLeadOne st leadID

def run (st : EngineState) (ops : List Op) : EngineState := ops.foldl step st

/-- The chat-lifecycle moves: staff messages, visitor messages, status
updates, reassignments and sweeps (no lead creation or deletion). -/
def isChatOp : Op → Bool
  | Op.visitorMessage .. => true
  | Op.staffMessage .. => true
  | Op.statusUpdate .. => true
  | Op.reassign .. => true
  | Op.sweep .. => true
  | _ => false

/-! ### The missed-chat sweep (C5) -/

theorem sweepLead_idem (t : TimerCfg) (now : Nat) (l : LeadDoc) :
    sweepLead t now (sweepLead t now l) = sweepLead t now l := by
  by_cases h : l.responseTime = 0 ∧ l.isMissedChat = false ∧ l.createdAt < now - timerMsOf t
  · simp [sweepLead, h]
  · simp [sweepLead, h]

theorem timerMsOf_eq (t : TimerCfg) :
    timerMsOf t = (t.hour * 3600 + t.minute * 60 + t.second) * 1000 := by
  unfold timerMsOf; ring

theorem sweepLead_eq_spec (t : TimerCfg) (now : Nat) (l : LeadDoc)
    (ht : 0 < timerMsOf t) :
    sweepLead t now l =
      if 0 < t.hour * 3600 + t.minute * 60 + t.second ∧ l.responseTime = 0 ∧
          l.isMissedChat = false ∧
          l.createdAt < now - (t.hour * 3600 + t.minute * 60 + t.second) * 1000 then
        { l with isMissedChat := true }
      else l := by
  have hms := timerMsOf_eq t
  have hpos : 0 < t.hour * 3600 + t.minute * 60 + t.second := by omega
  by_cases h : l.responseTime = 0 ∧ l.isMissedChat = false ∧ l.createdAt < now - timerMsOf t
  · rw [sweepLead, if_pos h, if_pos ⟨hpos, h.1, h.2.1, by rw [← hms]; exact h.2.2⟩]
  · rw [sweepLead, if_neg h, if_neg ?_]
    intro hcon
    exact h ⟨hcon.2.1, hcon.2.2.1, by rw [hms]; exact hcon.2.2.2⟩

/-- Claim C5: the missed-chat sweep is idempotent — at a fixed current time,
running it twice produces the same state as running it once — and a single
run, when the settings threshold `hour*3600 + minute*60 + second` is
positive, flags exactly the leads with `responseTime == 0`,
`isMissedChat == false` and `createdAt` earlier than now minus the
threshold, leaving every other lead untouched. -/
theorem foundMissedChats_idem (st : EngineState) (now : Nat) :
    (foundMissedChats (foundMissedChats st now).1 now).1 = (foundMissedChats st now).1 ∧
    (foundMissedChats st now).1.leads = st.leads.map (fun l =>
      match st.settings with
      | none => l
      | some cfg =>
        if 0 < cfg.missedChatTimer.hour * 3600 + cfg.missedChatTimer.minute * 60 +
              cfg.missedChatTimer.second ∧ l.responseTime = 0 ∧
            l.isMissedChat = false ∧
            l.createdAt < now - (cfg.missedChatTimer.hour * 3600 +
              cfg.missedChatTimer.minute * 60 + cfg.missedChatTimer.second) * 1000 then
          { l with isMissedChat := true }
        else l) := by
  cases hs : st.settings with
  | none =>
    constructor
    · simp [foundMissedChats, hs]
    · simp [foundMissedChats, hs]
  | some cfg =>
    by_cases ht : 0 < timerMsOf cfg.missedChatTimer
    · have hstep : (foundMissedChats st now).1 =
          { st with leads := st.leads.map (sweepLead cfg.missedChatTimer now) } := by
        simp [foundMissedChats, hs, ht]
      constructor
      · rw [hstep]
        have hcomp : sweepLead cfg.missedChatTimer now ∘ sweepLead cfg.missedChatTimer now =
            sweepLead cfg.missedChatTimer now :=
          funext (sweepLead_idem cfg.missedChatTimer now)
        simp [foundMissedChats, hs, ht, List.map_map, hcomp]
      · rw [hstep]
        exact List.map_congr_left (fun l _ => sweepLead_eq_spec cfg.missedChatTimer now l ht)
    · have hzero : cfg.missedChatTimer.hour * 3600 + cfg.missedChatTimer.minute * 60 +
          cfg.missedChatTimer.second = 0 := by
        have := timerMsOf_eq cfg.missedChatTimer
        omega
      have hstep : (foundMissedChats st now).1 = st := by
        simp [foundMissedChats, hs, ht]
      constructor
      · rw [hstep, hstep]
      · rw [hstep]
        have : ∀ l : LeadDoc,
            (if 0 < cfg.missedChatTimer.hour * 3600 + cfg.missedChatTimer.minute * 60 +
                  cfg.missedChatTimer.second ∧ l.responseTime = 0 ∧
                l.isMissedChat = false ∧
                l.createdAt < now - (cfg.missedChatTimer.hour * 3600 +
                  cfg.missedChatTimer.minute * 60 + cfg.missedChatTimer.second) * 1000 then
              { l with isMissedChat := true }
            else l) = l := by
          intro l
          rw [if_neg]
          intro hcon
          omega
        calc st.leads = st.leads.map id := by rw [List.map_id]
          _ = _ := List.map_congr_left (fun l _ => (this l).symm)

/-! ### Concrete fixtures -/

def demoTimer : TimerCfg := { hour := 1, minute := 0, second := 0 }

def demoPlaceholder : FormPlaceholderDoc :=
  { name := "Your name", email := "example@gmail.com", phone := "+1 (000) 000-0000",
    submitButton := "Thank You!" }

def demoSettings : SettingsDoc :=
  { headerColor := "#33475B", backgroundColor := "#EEEEEE", customizedMessages := [],
    formPlaceholder := demoPlaceholder, welcomeMessage := "hello",
    missedChatTimer := demoTimer }

/-- A deployment with a single Admin (id 0), seeded settings with a one-hour
missed-chat timer, and no leads yet. -/
def demoState : EngineState :=
  { users := [{ id := 0, role := Role.Admin, parent := none }], leads := [],
    convs := [], settings := some demoSettings }

/-- Claim C7: with the threshold at 1 hour, a lead created at time 0 and a
staff reply at T+30min: `isMissedChat` stays false and
`responseTime = 1800` seconds; a second staff reply at T+2h leaves
`responseTime` unchanged at 1800. -/
theorem staffReply_scenario :
    (findLead (run demoState [Op.createLead 1 "hi" 0 2025 1 1,
        Op.staffMessage 0 1 "hello" 1800000]) 1).map
        (fun l => (l.responseTime, l.isMissedChat)) = some (1800, false) ∧
    (findLead (run demoState [Op.createLead 1 "hi" 0 2025 1 1,
        Op.staffMessage 0 1 "hello" 1800000,
        Op.staffMessage 0 1 "again" 7200000]) 1).map
        (fun l => l.responseTime) = some 1800 := by
  decide

/-! ### Reassignment (C2) -/

/-- On every input, `putLeadAssignee` leaves the store unchanged: the strict
`ObjectId` comparison in the admin gate never identifies the two separately
hydrated documents, so every request takes an error branch. -/
theorem putLeadAssignee_fst (st : EngineState) (userID : Nat) (lid aid : Option Nat) :
    (putLeadAssignee st userID lid aid).1 = st := by
  match lid, aid with
  | none, none => rfl
  | none, some a => rfl
  | some l, none => rfl
  | some l, some a =>
    simp only [putLeadAssignee]
    cases findUser st userID with
    | none => rfl
    | some user =>
      cases findAdmin st with
      | none => rfl
      | some adm => rfl

def assignDemoLead : LeadDoc :=
  { id := 10, ticketID := "2025-0101", userName := none, userEmail := none,
    userPhone := none, isMissedChat := false, responseTime := 0,
    currentAssignee := some 0, assigneeList := [0], isFirstMessageShared := true,
    isDetailsShared := false, status := LeadStatus.Unresolved, createdAt := 0 }

/-- One Admin (id 0, the requester), one Member (id 1), one lead (id 10)
currently assigned to the Admin. -/
def assignDemoState : EngineState :=
  { users := [{ id := 0, role := Role.Admin, parent := none },
              { id := 1, role := Role.Member, parent := some 0 }],
    leads := [assignDemoLead], convs := [], settings := some demoSettings }

/-- Claim C2 (code bug demonstrated): the requesting user 0 *is* the sole
Admin and both the lead and the new assignee exist, yet the request is
rejected as unauthorized and the lead is left unchanged — the admin gate
compares `foundUser._id !== foundAdmin._id` by object reference, which never
identifies the ids of two separately hydrated documents. -/
theorem putLeadAssignee_admin_rejected :
    putLeadAssignee assignDemoState 0 (some 10) (some 1) =
      (assignDemoState, some Err.unauthorized) ∧
    (putLeadAssignee assignDemoState 0 (some 10) (some 1)).1.leads = [assignDemoLead] := by
  decide

/-! ### Analytics (C8) -/

/-- One step of the `reduce` in `getLeadsAnalytics`: leads with
`responseTime !== 0` contribute to the running sum and count. -/
def avgStep (acc : Nat × Nat) (l : LeadDoc) : Nat × Nat :=
  if l.responseTime ≠ 0 then (acc.1 + l.responseTime, acc.2 + 1) else acc

def avgFold (leads : List LeadDoc) : Nat × Nat := leads.foldl avgStep (0, 0)

/-- The average-response-time computation of `getLeadsAnalytics`:
`sum / count` when the count is positive, else the initial 0, then
`Math.round`.  JavaScript's float arithmetic on these integer-valued
quantities is modelled exactly by rationals. -/
def averateResponseTime (leads : List LeadDoc) : ℤ :=
  let rd := avgFold leads
  let avg : ℚ := if 0 < rd.2 then (rd.1 : ℚ) / (rd.2 : ℚ) else 0
  round avg

theorem avgFold_go (leads : List LeadDoc) : ∀ a b : Nat,
    leads.foldl avgStep (a, b) =
      (a + (((leads.filter fun l => l.responseTime != 0).map fun l => l.responseTime).sum),
       b + (leads.filter fun l => l.responseTime != 0).length) := by
  induction leads with
  | nil => intro a b; simp
  | cons l ls ih =>
    intro a b
    by_cases h : l.responseTime = 0
    · have hstep : avgStep (a, b) l = (a, b) := by simp [avgStep, h]
      simp only [List.foldl_cons, hstep]
      rw [ih a b]
      simp [List.filter_cons, h]
    · have hstep : avgStep (a, b) l = (a + l.responseTime, b + 1) := by simp [avgStep, h]
      simp only [List.foldl_cons, hstep]
      rw [ih (a + l.responseTime) (b + 1)]
      have hb : (l.responseTime != 0) = true := by simpa using h
      simp only [List.filter_cons, hb, if_pos, List.map_cons, List.sum_cons, List.length_cons,
        Prod.mk.injEq]
      exact ⟨by omega, by omega⟩

/-- Claim C8: `averateResponseTime` equals the rounded mean of
`responseTime` over the leads with `responseTime != 0` — leads with the
zero sentinel count in neither the numerator nor the denominator — and is 0
when no lead has a nonzero `responseTime`. -/
theorem averateResponseTime_spec (leads : List LeadDoc) :
    averateResponseTime leads =
      if (leads.filter fun l => l.responseTime != 0) = [] then 0
      else round
        ((((leads.filter fun l => l.responseTime != 0).map fun l => l.responseTime).sum : ℚ) /
          ((leads.filter fun l => l.responseTime != 0).length : ℚ)) := by
  unfold averateResponseTime avgFold
  rw [avgFold_go leads 0 0]
  by_cases h : (leads.filter fun l => l.responseTime != 0) = []
  · simp [h]
  · have hlen : 0 < (leads.filter fun l => l.responseTime != 0).length :=
      List.length_pos.mpr h
    simp [h, hlen, Function.comp_def]

/-! ### Chatbot settings update (C10) -/

/-- The `formPlaceholder` object of a `putChatBotSettings` request body;
fields may be absent (`none`). The handler also reads a `welcomeMessage`
key from this object. -/
structure FormPlaceholderBody where
  name : Option String
  email : Option String
  phone : Option String
  submitButton : Option String
  welcomeMessage : Option String
deriving DecidableEq

/-- A `putChatBotSettings` request body after JSON parsing; `none` models an
absent key. -/
structure SettingsBody where
  headerColor : Option String
  backgroundColor : Option String
  customizedMessages : Option (List String)
  formPlaceholder : Option FormPlaceholderBody
  welcomeMessage : Option String
  missedChatTimer : Option TimerCfg
deriving DecidableEq

/-- JavaScript truthiness of a possibly-absent string: absent and `""` are
falsy. -/
def truthyStr : Option String → Bool
  | none => false
  | some s => s != ""

def defaultWelcome : String :=
  "👋 Want to chat about Hubly? I'm a chatbot here to help you find your way."

/-- The document seeded by `loadDefaultSettings` (note the swapped
email/phone placeholder defaults of the source). -/
def defaultSettings : SettingsDoc :=
  { headerColor := "#33475B", backgroundColor := "#EEEEEE",
    customizedMessages := ["How can i help you?", "Ask me anything!"],
    formPlaceholder := { name := "Your name", phone := "+1 (000) 000-0000",
                         email := "example@gmail.com", submitButton := "Thank You!" },
    welcomeMessage := defaultWelcome,
    missedChatTimer := { hour := 1, minute := 0, second := 0 } }

/-- `putChatBotSettings`: validates that all six top-level body fields are
truthy (objects are truthy whenever present), then overwrites the settings
document.  The stored `welcomeMessage` is read from
`formPlaceholder.welcomeMessage ?? <default>` — not from the validated
top-level `welcomeMessage` field; the `??` defaults of the placeholder
fields mirror the source, including its swapped email/phone defaults.  When
no settings document exists, `loadDefaultSettings` seeds the defaults and
the request still fails with `EXPECTATION_FAILED`. -/
def putChatBotSettings (stored : Option SettingsDoc) (body : SettingsBody) :
    Option SettingsDoc × Option Err :=
  if truthyStr body.headerColor = true ∧ truthyStr body.backgroundColor = true ∧
      body.customizedMessages.isSome = true ∧ body.formPlaceholder.isSome = true ∧
      truthyStr body.welcomeMessage = true ∧ body.missedChatTimer.isSome = true then
    match stored, body.headerColor, body.backgroundColor, body.customizedMessages,
        body.formPlaceholder, body.missedChatTimer with
    | some _, some hc, some bc, some cm, some fp, some timer =>
      let updated : SettingsDoc :=
        { headerColor := hc, backgroundColor := bc, customizedMessages := cm,
          formPlaceholder :=
            { name := fp.name.getD "Your name",
              email := fp.email.getD "+1 (000) 000-0000",
              phone := fp.phone.getD "example@gmail.com",
              submitButton := fp.submitButton.getD "Thank You!" },
          welcomeMessage := fp.welcomeMessage.getD defaultWelcome,
          missedChatTimer := timer }
      (some updated, none)
    | none, _, _, _, _, _ => (some defaultSettings, some Err.expectationFailed)
    | _, _, _, _, _, _ => (stored, some Err.serverError)
  else (stored, some Err.conflict)

/-- Claim C10: on every successful `putChatBotSettings` request whose
`formPlaceholder` object carries no `welcomeMessage` key, the stored
`welcomeMessage` is overwritten with the default greeting, whatever truthy
top-level `welcomeMessage` the body supplied. -/
theorem putChatBotSettings_welcome_default (stored : Option SettingsDoc)
    (s : SettingsDoc) (body : SettingsBody) (fp : FormPlaceholderBody)
    (hs : stored = some s) (hfp : body.formPlaceholder = some fp)
    (hw : fp.welcomeMessage = none)
    (h1 : truthyStr body.headerColor = true) (h2 : truthyStr body.backgroundColor = true)
    (h3 : body.customizedMessages.isSome = true)
    (h5 : truthyStr body.welcomeMessage = true) (h6 : body.missedChatTimer.isSome = true) :
    ∃ s', putChatBotSettings stored body = (some s', none) ∧
      s'.welcomeMessage = defaultWelcome := by
  subst hs
  obtain ⟨bhc, bbc, bcm, bfp, bw, bt⟩ := body
  simp only at hfp h1 h2 h3 h5 h6
  subst hfp
  obtain ⟨hc, rfl⟩ : ∃ hc, bhc = some hc := by
    cases bhc
    · simp [truthyStr] at h1
    · exact ⟨_, rfl⟩
  obtain ⟨bc, rfl⟩ : ∃ bc, bbc = some bc := by
    cases bbc
    · simp [truthyStr] at h2
    · exact ⟨_, rfl⟩
  obtain ⟨cm, rfl⟩ : ∃ cm, bcm = some cm := by
    cases bcm
    · simp at h3
    · exact ⟨_, rfl⟩
  obtain ⟨timer, rfl⟩ : ∃ t, bt = some t := by
    cases bt
    · simp at h6
    · exact ⟨_, rfl⟩
  refine ⟨{ headerColor := hc, backgroundColor := bc, customizedMessages := cm,
            formPlaceholder :=
              { name := fp.name.getD "Your name",
                email := fp.email.getD "+1 (000) 000-0000",
                phone := fp.phone.getD "example@gmail.com",
                submitButton := fp.submitButton.getD "Thank You!" },
            welcomeMessage := fp.welcomeMessage.getD defaultWelcome,
            missedChatTimer := timer }, ?_, ?_⟩
  · delta putChatBotSettings
    rw [if_pos ⟨h1, h2, h3, rfl, h5, h6⟩]
  · simp [hw]

def demoFPBody : FormPlaceholderBody :=
  { name := some "n", email := some "e", phone := some "p",
    submitButton := some "s", welcomeMessage := none }

def demoSettingsBody : SettingsBody :=
  { headerColor := some "#000000", backgroundColor := some "#FFFFFF",
    customizedMessages := some ["hi"], formPlaceholder := some demoFPBody,
    welcomeMessage := some "this top-level value is never stored",
    missedChatTimer := some demoTimer }

theorem putChatBotSettings_welcome_default_witness :
    ∃ s', putChatBotSettings (some defaultSettings) demoSettingsBody = (some s', none) ∧
      s'.welcomeMessage = defaultWelcome :=
  putChatBotSettings_welcome_default (some defaultSettings) defaultSettings
    demoSettingsBody demoFPBody rfl rfl rfl (by decide) (by decide) (by decide)
    (by decide) (by decide)

/-! ### Member deletion (C4) -/

def delDemoMember : UserDoc := { id := 1, role := Role.Member, parent := some 0 }

def delDemoAdmin : UserDoc := { id := 0, role := Role.Admin, parent := none }

def delDemoLead : LeadDoc :=
  { id := 20, ticketID := "2025-0102", userName := none, userEmail := none,
    userPhone := none, isMissedChat := false, responseTime := 0,
    currentAssignee := some 1, assigneeList := [1, 0], isFirstMessageShared := true,
    isDetailsShared := false, status := LeadStatus.Unresolved, createdAt := 0 }

def delDemoConv : ConvDoc :=
  { leadID := 20, message := "hello", sendBy := SendBy.member, assigneeID := some 1,
    createdAt := 5 }

/-- Admin 0, Member 1 (parent 0); a lead whose `currentAssignee` is Member 1
with Member 1 in its `assigneeList`, and a conversation turn authored by
Member 1. -/
def delDemoState : EngineState :=
  { users := [delDemoAdmin, delDemoMember], leads := [delDemoLead],
    convs := [delDemoConv], settings := none }

/-- Claim C4 (code bug demonstrated): the parent admin deletes Member 1 and
the request succeeds, but only the user document disappears — the lead still
carries the deleted member as `currentAssignee` and in `assigneeList`, and
the member's conversation turn still names them.  The
`userSchema.pre('deleteOne')` reassignment hook is registered after
`mongoose.model` compiles the model and never fires, so the reassignment the
spec describes does not happen. -/
theorem deleteMember_no_reassign :
    (deleteMember delDemoState 0 (some 1)).2 = none ∧
    (deleteMember delDemoState 0 (some 1)).1.users = [delDemoAdmin] ∧
    (deleteMember delDemoState 0 (some 1)).1.leads = [delDemoLead] ∧
    (deleteMember delDemoState 0 (some 1)).1.convs = [delDemoConv] ∧
    delDemoLead.currentAssignee = some 1 ∧ 1 ∈ delDemoLead.assigneeList ∧
    delDemoConv.assigneeID = some 1 := by
  decide

/-! ### Monotonicity of `isMissedChat` (C6) -/

theorem find?_map_of_id (g : LeadDoc → LeadDoc) (hg : ∀ l, (g l).id = l.id)
    (leads : List LeadDoc) (i : Nat) :
    (leads.map g).find? (fun l => l.id == i) =
      (leads.find? (fun l => l.id == i)).map g := by
  induction leads with
  | nil => rfl
  | cons l ls ih =>
    simp only [List.map_cons, List.find?_cons, hg]
    cases hb : (l.id == i) with
    | true => rfl
    | false => exact ih

theorem find?_save (leads : List LeadDoc) (l2 : LeadDoc) (i : Nat) :
    (saveLead leads l2).find? (fun l => l.id == i) =
      (leads.find? (fun l => l.id == i)).map (fun x => if x.id = l2.id then l2 else x) := by
  refine find?_map_of_id _ (fun x => ?_) leads i
  by_cases hx : x.id = l2.id
  · simp [hx]
  · simp [hx]

theorem putLeadMessage_leads (st : EngineState) (lid : Nat) (msg : String) (now : Nat) :
    (putLeadMessage st lid msg now).1.leads = st.leads := by
  simp only [putLeadMessage]
  split
  · rfl
  · cases findLead st lid <;> rfl

/-- If a lead is found before a chat-lifecycle step, a lead with the same id
is found afterwards, its missed-chat flag not cleared and its nonzero
response time untouched. -/
theorem step_find_chatOp (st : EngineState) (op : Op) (hop : isChatOp op = true)
    (i : Nat) (l : LeadDoc) (h : findLead st i = some l) :
    ∃ l', findLead (step st op) i = some l' ∧
      (l.isMissedChat = true → l'.isMissedChat = true) ∧
      (l.responseTime ≠ 0 → l'.responseTime = l.responseTime) := by
  have hid : l.id = i := by
    have := List.find?_some h
    simpa using this
  have hF : st.leads.find? (fun x => x.id == i) = some l := h
  cases op with
  | createLead newID message now y m d => simp [isChatOp] at hop
  | deleteLead lid => simp [isChatOp] at hop
  | leadForm lid name email phone => simp [isChatOp] at hop
  | visitorMessage lid msg now =>
    refine ⟨l, ?_, fun hf => hf, fun _ => rfl⟩
    show (putLeadMessage st lid msg now).1.leads.find? (fun l => l.id == i) = some l
    rw [putLeadMessage_leads]
    exact h
  | reassign uid lid aid =>
    refine ⟨l, ?_, fun hf => hf, fun _ => rfl⟩
    show (putLeadAssignee st uid (some lid) (some aid)).1.leads.find? (fun l => l.id == i) =
      some l
    rw [putLeadAssignee_fst]
    exact h
  | sweep now =>
    show ∃ l', (foundMissedChats st now).1.leads.find? (fun l => l.id == i) = some l' ∧ _
    cases hs : st.settings with
    | none =>
      refine ⟨l, ?_, fun hf => hf, fun _ => rfl⟩
      simp [foundMissedChats, hs]
      exact h
    | some cfg =>
      by_cases ht : 0 < timerMsOf cfg.missedChatTimer
      · have hleads : (foundMissedChats st now).1.leads =
            st.leads.map (sweepLead cfg.missedChatTimer now) := by
          simp [foundMissedChats, hs, ht]
        refine ⟨sweepLead cfg.missedChatTimer now l, ?_, ?_, ?_⟩
        · rw [hleads, find?_map_of_id _ (fun x => by by_cases hx : x.responseTime = 0 ∧
              x.isMissedChat = false ∧ x.createdAt < now - timerMsOf cfg.missedChatTimer <;>
              simp [sweepLead, hx]), hF]
          rfl
        · intro hf
          by_cases hx : l.responseTime = 0 ∧ l.isMissedChat = false ∧
              l.createdAt < now - timerMsOf cfg.missedChatTimer <;> simp [sweepLead, hx, hf]
        · intro hr
          by_cases hx : l.responseTime = 0 ∧ l.isMissedChat = false ∧
              l.createdAt < now - timerMsOf cfg.missedChatTimer <;> simp [sweepLead, hx]
      · refine ⟨l, ?_, fun hf => hf, fun _ => rfl⟩
        simp [foundMissedChats, hs, ht]
        exact h
  | statusUpdate uid lid status =>
    show ∃ l', (putStatusUpdate st uid lid status).1.leads.find? (fun l => l.id == i) =
      some l' ∧ _
    cases hu : findUser st uid with
    | none => exact ⟨l, by simp [putStatusUpdate, hu]; exact h, fun hf => hf, fun _ => rfl⟩
    | some user =>
      cases hl : findLead st lid with
      | none => exact ⟨l, by simp [putStatusUpdate, hu, hl]; exact h, fun hf => hf, fun _ => rfl⟩
      | some lead =>
        cases hca : lead.currentAssignee with
        | none =>
          exact ⟨l, by simp [putStatusUpdate, hu, hl, hca]; exact h, fun hf => hf, fun _ => rfl⟩
        | some assignee =>
          by_cases hauth : assignee ≠ user.id
          · exact ⟨l, by simp [putStatusUpdate, hu, hl, hca, hauth]; exact h,
              fun hf => hf, fun _ => rfl⟩
          · have hleads : (putStatusUpdate st uid lid status).1.leads =
                saveLead st.leads { lead with status := status } := by
              simp [putStatusUpdate, hu, hl, hca, hauth]
            by_cases hsame : l.id = lead.id
            · have hIeq : i = lid := by
                have hlid : lead.id = lid := by
                  have := List.find?_some hl
                  simpa using this
                omega
              have : l = lead := by
                rw [hIeq] at h
                rw [h] at hl
                exact (Option.some.injEq _ _).mp hl
              subst this
              refine ⟨{ l with status := status }, ?_, fun hf => hf, fun _ => rfl⟩
              rw [hleads, find?_save, hF]
              simp
            · refine ⟨l, ?_, fun hf => hf, fun _ => rfl⟩
              rw [hleads, find?_save, hF]
              simp [hsame]
  | staffMessage uid lid msg now =>
    show ∃ l', (putMessage st uid lid msg now).1.leads.find? (fun l => l.id == i) =
      some l' ∧ _
    by_cases hmsg : msg = ""
    · exact ⟨l, by simp [putMessage, hmsg]; exact h, fun hf => hf, fun _ => rfl⟩
    cases hu : findUser st uid with
    | none => exact ⟨l, by simp [putMessage, hmsg, hu]; exact h, fun hf => hf, fun _ => rfl⟩
    | some user =>
      cases hl : findLead st lid with
      | none => exact ⟨l, by simp [putMessage, hmsg, hu, hl]; exact h, fun hf => hf, fun _ => rfl⟩
      | some lead =>
        cases hca : lead.currentAssignee with
        | none =>
          exact ⟨l, by simp [putMessage, hmsg, hu, hl, hca]; exact h, fun hf => hf, fun _ => rfl⟩
        | some assignee =>
          by_cases hauth : assignee ≠ user.id
          · exact ⟨l, by simp [putMessage, hmsg, hu, hl, hca, hauth]; exact h,
              fun hf => hf, fun _ => rfl⟩
          cases hs : st.settings with
          | none =>
            exact ⟨l, by simp [putMessage, hmsg, hu, hl, hca, hauth, hs]; exact h,
              fun hf => hf, fun _ => rfl⟩
          | some cfg =>
            have hleads : (putMessage st uid lid msg now).1.leads = saveLead st.leads
                (stampMissedChat cfg (stampResponseTime lead now) (now - lead.createdAt)) := by
              simp only [putMessage, if_neg hmsg, hu, hl, hca, if_neg hauth, hs]
            set lead2 := stampMissedChat cfg (stampResponseTime lead now)
              (now - lead.createdAt) with hl2
            have hid2 : lead2.id = lead.id := by
              rw [hl2, stampMissedChat_id, stampResponseTime_id]
            have hflag2 : lead.isMissedChat = true → lead2.isMissedChat = true := by
              intro hf
              rw [hl2]
              exact stampMissedChat_flag_mono _ _ _ (by rw [stampResponseTime_flag]; exact hf)
            have hrt2 : lead.responseTime ≠ 0 → lead2.responseTime = lead.responseTime := by
              intro hr
              rw [hl2, stampMissedChat_rt, stampResponseTime_rt_ne _ _ hr]
            by_cases hsame : l.id = lead2.id
            · have hIeq : i = lid := by
                have hlid : lead.id = lid := by
                  have := List.find?_some hl
                  simpa using this
                omega
              have hleq : l = lead := by
                rw [hIeq] at h
                rw [h] at hl
                exact (Option.some.injEq _ _).mp hl
              refine ⟨lead2, ?_, ?_, ?_⟩
              · rw [hleads, find?_save, hF]
                simp [hsame]
              · rw [hleq]; exact hflag2
              · rw [hleq]; exact hrt2
            · refine ⟨l, ?_, fun hf => hf, fun _ => rfl⟩
              rw [hleads, find?_save, hF]
              simp [hsame]

theorem run_find_chatOps (st : EngineState) (ops : List Op)
    (hops : ∀ op ∈ ops, isChatOp op = true) (i : Nat) (l : LeadDoc)
    (h : findLead st i = some l) :
    ∃ l', findLead (run st ops) i = some l' ∧
      (l.isMissedChat = true → l'.isMissedChat = true) ∧
      (l.responseTime ≠ 0 → l'.responseTime = l.responseTime) := by
  induction ops generalizing st l with
  | nil => exact ⟨l, h, fun hf => hf, fun _ => rfl⟩
  | cons op rest ih =>
    obtain ⟨l1, h1, hflag1, hrt1⟩ :=
      step_find_chatOp st op (hops op (List.mem_cons_self op rest)) i l h
    obtain ⟨l', h', hflag', hrt'⟩ :=
      ih (step st op) (fun o ho => hops o (List.mem_cons_of_mem op ho)) l1 h1
    refine ⟨l', h', fun hf => hflag' (hflag1 hf), fun hr => ?_⟩
    rw [hrt' (by rw [hrt1 hr]; exact hr), hrt1 hr]

/-- Claim C6: over every sequence of chat-lifecycle operations (staff
messages, visitor messages, status updates, reassignments, sweeps),
`isMissedChat` never transitions from true to false: once set on a lead, it
is still set in every reachable successor state. -/
theorem isMissedChat_monotone (st : EngineState) (ops : List Op)
    (hops : ∀ op ∈ ops, isChatOp op = true) (i : Nat) (l l' : LeadDoc)
    (h : findLead st i = some l) (hflag : l.isMissedChat = true)
    (h' : findLead (run st ops) i = some l') : l'.isMissedChat = true := by
  obtain ⟨l'', h'', hf, _⟩ := run_find_chatOps st ops hops i l h
  rw [h'] at h''
  cases h''
  exact hf hflag

def monoDemoLead : LeadDoc :=
  { id := 20, ticketID := "2025-0101", userName := none, userEmail := none,
    userPhone := none, isMissedChat := true, responseTime := 0,
    currentAssignee := some 0, assigneeList := [0], isFirstMessageShared := true,
    isDetailsShared := false, status := LeadStatus.Unresolved, createdAt := 0 }

def monoDemoState : EngineState :=
  { users := [{ id := 0, role := Role.Admin, parent := none }], leads := [monoDemoLead],
    convs := [], settings := some demoSettings }

def monoDemoOps : List Op := [Op.sweep 99, Op.statusUpdate 0 20 LeadStatus.Resolved]

def monoDemoFinal : LeadDoc := { monoDemoLead with status := LeadStatus.Resolved }

theorem isMissedChat_monotone_witness : monoDemoFinal.isMissedChat = true :=
  isMissedChat_monotone monoDemoState monoDemoOps (by decide) 20 monoDemoLead monoDemoFinal
    (by decide) (by decide) (by decide)

/-! ### The response-time invariant (C1) -/

/-- A staff reply for lead `l` logged at least one second after the lead's
creation — exactly the replies whose `Math.floor`ed response time is
nonzero. -/
def staffRepliedLate (convs : List ConvDoc) (l : LeadDoc) : Prop :=
  ∃ c ∈ convs, c.leadID = l.id ∧ c.sendBy = SendBy.member ∧ l.createdAt + 1000 ≤ c.createdAt

instance staffRepliedLateDec (convs : List ConvDoc) (l : LeadDoc) :
    Decidable (staffRepliedLate convs l) :=
  decidable_of_iff (∃ c ∈ convs, c.leadID = l.id ∧ c.sendBy = SendBy.member ∧
    l.createdAt + 1000 ≤ c.createdAt) Iff.rfl

/-- Engine invariant: a lead's `responseTime` is 0 exactly when no staff
reply at least one second after its creation has been logged. -/
def Inv (st : EngineState) : Prop :=
  ∀ l ∈ st.leads, (l.responseTime = 0 ↔ ¬ staffRepliedLate st.convs l)

instance InvDec (st : EngineState) : Decidable (Inv st) := by
  unfold Inv
  infer_instance

theorem staffRepliedLate_append (convs : List ConvDoc) (c : ConvDoc) (l : LeadDoc) :
    staffRepliedLate (convs ++ [c]) l ↔
      staffRepliedLate convs l ∨
        (c.leadID = l.id ∧ c.sendBy = SendBy.member ∧ l.createdAt + 1000 ≤ c.createdAt) := by
  unfold staffRepliedLate
  constructor
  · rintro ⟨c', hc', hprop⟩
    rcases List.mem_append.mp hc' with h | h
    · exact Or.inl ⟨c', h, hprop⟩
    · rw [List.mem_singleton] at h
      subst h
      exact Or.inr hprop
  · rintro (⟨c', h, hprop⟩ | hprop)
    · exact ⟨c', List.mem_append_left _ h, hprop⟩
    · exact ⟨c, List.mem_append_right _ (List.mem_singleton_self c), hprop⟩

theorem staffRepliedLate_congr (convs : List ConvDoc) (l l' : LeadDoc)
    (hid : l'.id = l.id) (hca : l'.createdAt = l.createdAt) :
    staffRepliedLate convs l' ↔ staffRepliedLate convs l := by
  unfold staffRepliedLate
  rw [hid, hca]

/-- Updating leads in place with an id-, creation-time- and
response-time-preserving transformation preserves the invariant. -/
theorem inv_map_rt_preserving (st : EngineState) (g : LeadDoc → LeadDoc)
    (hg_id : ∀ l, (g l).id = l.id) (hg_ca : ∀ l, (g l).createdAt = l.createdAt)
    (hg_rt : ∀ l, (g l).responseTime = l.responseTime)
    (hInv : Inv st) : Inv { st with leads := st.leads.map g } := by
  intro l hl
  rw [List.mem_map] at hl
  obtain ⟨x, hx, rfl⟩ := hl
  rw [hg_rt, staffRepliedLate_congr st.convs x (g x) (hg_id x) (hg_ca x)]
  exact hInv x hx

/-- Saving one mutated lead document whose own response-time biconditional
holds preserves the invariant when the conversations are untouched. -/
theorem inv_save_noconv (st : EngineState) (l2 : LeadDoc) (hInv : Inv st)
    (h2 : l2.responseTime = 0 ↔ ¬ staffRepliedLate st.convs l2) :
    Inv { st with leads := saveLead st.leads l2 } := by
  intro l hl
  rw [saveLead, List.mem_map] at hl
  obtain ⟨x, hx, rfl⟩ := hl
  by_cases hxe : x.id = l2.id
  · simpa [hxe] using h2
  · simpa [hxe] using hInv x hx

theorem inv_step (st : EngineState) (op : Op) (hInv : Inv st) : Inv (step st op) := by
  cases op with
  | reassign uid lid aid =>
    show Inv (putLeadAssignee st uid (some lid) (some aid)).1
    rw [putLeadAssignee_fst]
    exact hInv
  | deleteLead lid =>
    show Inv (deleteLeadOne st lid)
    intro l hl
    have hl2 : l ∈ st.leads.filter (fun y => y.id ≠ lid) := hl
    rw [List.mem_filter] at hl2
    exact hInv l hl2.1
  | sweep now =>
    show Inv (foundMissedChats st now).1
    cases hs : st.settings with
    | none =>
      have heq : (foundMissedChats st now).1 = st := by simp [foundMissedChats, hs]
      rw [heq]
      exact hInv
    | some cfg =>
      by_cases ht : 0 < timerMsOf cfg.missedChatTimer
      · have heq : (foundMissedChats st now).1 =
            { st with leads := st.leads.map (sweepLead cfg.missedChatTimer now) } := by
          simp [foundMissedChats, hs, ht]
        rw [heq]
        refine inv_map_rt_preserving st _ ?_ ?_ ?_ hInv <;>
          intro x <;>
          by_cases hx : x.responseTime = 0 ∧ x.isMissedChat = false ∧
            x.createdAt < now - timerMsOf cfg.missedChatTimer <;>
          simp [sweepLead, hx]
      · have heq : (foundMissedChats st now).1 = st := by simp [foundMissedChats, hs, ht]
        rw [heq]
        exact hInv
  | statusUpdate uid lid status =>
    show Inv (putStatusUpdate st uid lid status).1
    cases hu : findUser st uid with
    | none => simpa [putStatusUpdate, hu] using hInv
    | some user =>
      cases hl : findLead st lid with
      | none => simpa [putStatusUpdate, hu, hl] using hInv
      | some lead =>
        cases hca : lead.currentAssignee with
        | none => simpa [putStatusUpdate, hu, hl, hca] using hInv
        | some assignee =>
          by_cases hauth : assignee ≠ user.id
          · simpa [putStatusUpdate, hu, hl, hca, hauth] using hInv
          · have hstate : (putStatusUpdate st uid lid status).1 =
                { st with leads := saveLead st.leads { lead with status := status } } := by
              simp [putStatusUpdate, hu, hl, hca, hauth]
            rw [hstate]
            refine inv_save_noconv st _ hInv ?_
            have hmem : lead ∈ st.leads := List.mem_of_find?_eq_some hl
            rw [show ({ lead with status := status } : LeadDoc).responseTime =
                lead.responseTime from rfl,
              staffRepliedLate_congr st.convs lead { lead with status := status } rfl rfl]
            exact hInv lead hmem
  | leadForm lid name email phone =>
    show Inv (postLeadForm st lid name email phone).1
    by_cases hval : name = "" ∨ email = "" ∨ phone = ""
    · simpa [postLeadForm, hval] using hInv
    cases hl : findLead st lid with
    | none => simpa [postLeadForm, hval, hl] using hInv
    | some lead =>
      have hmem : lead ∈ st.leads := List.mem_of_find?_eq_some hl
      set lead1 : LeadDoc :=
        { lead with userName := some name.trim, userEmail := some email.trim,
                    userPhone := some phone.trim, isDetailsShared := true } with hl1
      have hstate : (postLeadForm st lid name email phone).1 =
          { st with leads := saveLead st.leads lead1 } := by
        simp [postLeadForm, hval, hl, hl1]
      rw [hstate]
      refine inv_save_noconv st _ hInv ?_
      have hrt1 : lead1.responseTime = lead.responseTime := by rw [hl1]
      rw [hrt1, staffRepliedLate_congr st.convs lead lead1 (by rw [hl1]) (by rw [hl1])]
      exact hInv lead hmem
  | visitorMessage lid msg now =>
    show Inv (putLeadMessage st lid msg now).1
    by_cases hmsg : msg = ""
    · simpa [putLeadMessage, hmsg] using hInv
    cases hl : findLead st lid with
    | none => simpa [putLeadMessage, hmsg, hl] using hInv
    | some lead =>
      set newConv : ConvDoc :=
        { leadID := lead.id, message := msg, sendBy := SendBy.lead,
          assigneeID := none, createdAt := now } with hnc
      have hstate : (putLeadMessage st lid msg now).1 =
          { st with convs := st.convs ++ [newConv] } := by
        simp [putLeadMessage, hmsg, hl, hnc]
      rw [hstate]
      intro l hl'
      rw [staffRepliedLate_append]
      have hno : ¬ (newConv.leadID = l.id ∧ newConv.sendBy = SendBy.member ∧
          l.createdAt + 1000 ≤ newConv.createdAt) := by
        rintro ⟨-, hsb, -⟩
        rw [hnc] at hsb
        simp at hsb
      rw [iff_comm, not_or, and_iff_left hno, iff_comm]
      exact hInv l hl'
  | createLead newID message now y m d =>
    show Inv (postNewLead st newID message now y m d).1
    by_cases hmsg : message = ""
    · simpa [postNewLead, hmsg] using hInv
    cases hadm : findAdmin st with
    | none => simpa [postNewLead, hmsg, hadm] using hInv
    | some adm =>
      cases htid : getTicketID (st.leads.map (fun l => l.ticketID)) y m d with
      | none => simpa [postNewLead, hmsg, hadm, htid] using hInv
      | some code =>
        by_cases hfresh : (∃ a ∈ st.leads, a.id = newID) ∨ ∃ c ∈ st.convs, c.leadID = newID
        · simpa [postNewLead, hmsg, hadm, htid, hfresh] using hInv
        · have hnoconv : ¬ ∃ c ∈ st.convs, c.leadID = newID :=
            fun hc => hfresh (Or.inr hc)
          set newLead : LeadDoc :=
            { id := newID, ticketID := code, userName := none, userEmail := none,
              userPhone := none, isMissedChat := false, responseTime := 0,
              currentAssignee := some adm.id, assigneeList := [adm.id],
              isFirstMessageShared := true, isDetailsShared := false,
              status := LeadStatus.Unresolved, createdAt := now } with hnl
          set newConv : ConvDoc :=
            { leadID := newID, message := message, sendBy := SendBy.lead,
              assigneeID := none, createdAt := now } with hnc2
          have hstate : (postNewLead st newID message now y m d).1 =
              { st with leads := st.leads ++ [newLead],
                        convs := st.convs ++ [newConv] } := by
            simp [postNewLead, hmsg, hadm, htid, hfresh, hnl, hnc2]
          rw [hstate]
          intro l hl'
          rcases List.mem_append.mp hl' with h | h
          · rw [staffRepliedLate_append]
            have hno : ¬ (newConv.leadID = l.id ∧ newConv.sendBy = SendBy.member ∧
                l.createdAt + 1000 ≤ newConv.createdAt) := by
              rintro ⟨-, hsb, -⟩
              rw [hnc2] at hsb
              simp at hsb
            rw [iff_comm, not_or, and_iff_left hno, iff_comm]
            exact hInv l h
          · rw [List.mem_singleton] at h
            subst h
            have hrt0 : newLead.responseTime = 0 := by rw [hnl]
            rw [hrt0]
            simp only [true_iff]
            rintro ⟨c, hc, hcid, hsb, -⟩
            rcases List.mem_append.mp hc with hco | hco
            · exact hnoconv ⟨c, hco, by rw [hcid, hnl]⟩
            · rw [List.mem_singleton] at hco
              subst hco
              rw [hnc2] at hsb
              simp at hsb
  | staffMessage uid lid msg now =>
    show Inv (putMessage st uid lid msg now).1
    by_cases hmsg : msg = ""
    · simpa [putMessage, hmsg] using hInv
    cases hu : findUser st uid with
    | none => simpa [putMessage, hmsg, hu] using hInv
    | some user =>
      cases hl : findLead st lid with
      | none => simpa [putMessage, hmsg, hu, hl] using hInv
      | some lead =>
        cases hca : lead.currentAssignee with
        | none => simpa [putMessage, hmsg, hu, hl, hca] using hInv
        | some assignee =>
          by_cases hauth : assignee ≠ user.id
          · simpa [putMessage, hmsg, hu, hl, hca, hauth] using hInv
          cases hs : st.settings with
          | none => simpa [putMessage, hmsg, hu, hl, hca, hauth, hs] using hInv
          | some cfg =>
            have hmem : lead ∈ st.leads := List.mem_of_find?_eq_some hl
            set lead2 := stampMissedChat cfg (stampResponseTime lead now)
              (now - lead.createdAt) with hl2
            set newConv : ConvDoc :=
              { leadID := lead.id, message := msg, sendBy := SendBy.member,
                assigneeID := some user.id, createdAt := now } with hnc
            have hstate : (putMessage st uid lid msg now).1 =
                { st with leads := saveLead st.leads lead2,
                          convs := st.convs ++ [newConv] } := by
              simp [putMessage, hmsg, hu, hl, hca, hauth, hs]
            rw [hstate]
            have hid2 : lead2.id = lead.id := by
              rw [hl2, stampMissedChat_id, stampResponseTime_id]
            have hca2 : lead2.createdAt = lead.createdAt := by
              rw [hl2, stampMissedChat_createdAt, stampResponseTime_createdAt]
            intro l hl'
            rw [saveLead, List.mem_map] at hl'
            obtain ⟨x, hx, rfl⟩ := hl'
            by_cases hxe : x.id = lead2.id
            · rw [if_pos hxe]
              rw [staffRepliedLate_append]
              have hmatch : (newConv.leadID = lead2.id ∧ newConv.sendBy = SendBy.member ∧
                  lead2.createdAt + 1000 ≤ newConv.createdAt) ↔
                  (lead.createdAt + 1000 ≤ now) := by
                rw [hnc, hca2]
                simp [hid2]
              rw [staffRepliedLate_congr st.convs lead lead2 hid2 hca2]
              by_cases hr0 : lead.responseTime = 0
              · have hnot : ¬ staffRepliedLate st.convs lead := (hInv lead hmem).mp hr0
                have hrt2 : lead2.responseTime = (now - lead.createdAt) / 1000 := by
                  rw [hl2, stampMissedChat_rt, stampResponseTime, if_pos hr0]
                rw [hrt2, hmatch]
                constructor
                · intro hdiv
                  rintro (hsrl | hlate)
                  · exact hnot hsrl
                  · have : now - lead.createdAt < 1000 := by
                      by_contra hge
                      rw [Nat.div_eq_zero_iff (by omega)] at hdiv
                      omega
                    omega
                · intro hnone
                  have hlt : ¬ (lead.createdAt + 1000 ≤ now) := fun hc => hnone (Or.inr hc)
                  rw [Nat.div_eq_zero_iff (by omega)]
                  omega
              · have hsrl : staffRepliedLate st.convs lead :=
                  not_not.mp (fun hn => hr0 ((hInv lead hmem).mpr hn))
                have hrtne : lead2.responseTime = lead.responseTime := by
                  rw [hl2, stampMissedChat_rt, stampResponseTime_rt_ne _ _ hr0]
                rw [hrtne]
                constructor
                · intro h0
                  exact absurd h0 hr0
                · intro hnone
                  exact absurd (Or.inl hsrl) hnone
            · rw [if_neg hxe]
              rw [staffRepliedLate_append]
              have hxid : x.id ≠ lead.id := by rw [← hid2]; exact hxe
              have hno : ¬ (newConv.leadID = x.id ∧ newConv.sendBy = SendBy.member ∧
                  x.createdAt + 1000 ≤ newConv.createdAt) := by
                rintro ⟨hcid, -, -⟩
                rw [hnc] at hcid
                exact hxid hcid.symm
              rw [iff_comm, not_or, and_iff_left hno, iff_comm]
              exact hInv x hx

theorem inv_run (st : EngineState) (ops : List Op) (hInv : Inv st) : Inv (run st ops) := by
  induction ops generalizing st with
  | nil => exact hInv
  | cons op rest ih => exact ih (step st op) (inv_step st op hInv)

/-- Claim C1 (amended): `responseTime` transitions from 0 to nonzero at most
once and, over chat-lifecycle operations, a nonzero value never changes
again; however a staff reply posted less than one second after lead creation
stamps `Math.floor(elapsed/1000) = 0`, so the invariant that actually holds
at every reachable state is: `responseTime == 0` iff no staff message has
been logged *at least one second* after the lead's creation. -/
theorem responseTime_invariant (st : EngineState) (ops : List Op) (hInv : Inv st) :
    Inv (run st ops) ∧
    ∀ i : Nat, ∀ l l' : LeadDoc, (∀ op ∈ ops, isChatOp op = true) →
      findLead st i = some l → l.responseTime ≠ 0 →
      findLead (run st ops) i = some l' → l'.responseTime = l.responseTime := by
  refine ⟨inv_run st ops hInv, ?_⟩
  intro i l l' hops h hrtne h'
  obtain ⟨l'', h'', _, hr⟩ := run_find_chatOps st ops hops i l h
  rw [h'] at h''
  cases h''
  exact hr hrtne

theorem responseTime_invariant_witness :
    Inv (run demoState [Op.createLead 1 "hi" 0 2025 1 1,
      Op.staffMessage 0 1 "hello" 1800000]) ∧
    ∀ i : Nat, ∀ l l' : LeadDoc,
      (∀ op ∈ [Op.createLead 1 "hi" 0 2025 1 1, Op.staffMessage 0 1 "hello" 1800000],
        isChatOp op = true) →
      findLead demoState i = some l → l.responseTime ≠ 0 →
      findLead (run demoState [Op.createLead 1 "hi" 0 2025 1 1,
        Op.staffMessage 0 1 "hello" 1800000]) i = some l' →
      l'.responseTime = l.responseTime :=
  responseTime_invariant demoState
    [Op.createLead 1 "hi" 0 2025 1 1, Op.staffMessage 0 1 "hello" 1800000] (by decide)

/-- Claim C1 counterexample: starting from a fresh deployment, a staff reply
posted 500 ms after lead creation leaves `responseTime = 0` even though a
staff conversation turn for that lead is logged — refuting both
"`responseTime` transitions 0→nonzero on the first staff message" and
"`responseTime == 0` iff no staff message has ever been logged". -/
theorem responseTime_invariant_cex :
    (findLead (run demoState [Op.createLead 1 "hi" 0 2025 1 1,
        Op.staffMessage 0 1 "quick" 500]) 1).map (fun l => l.responseTime) = some 0 ∧
    ((run demoState [Op.createLead 1 "hi" 0 2025 1 1,
        Op.staffMessage 0 1 "quick" 500]).convs.filter
        (fun c => c.sendBy == SendBy.member)).length = 1 := by
  decide

/-- Claim C9 counterexample: on one calendar day, creating a lead, deleting
it and creating another yields the ticket code `2025-0101` twice — the
sequencer checks only currently existing leads, so a deleted lead's code is
reissued. -/
theorem ticketID_reuse_cex :
    (findLead (run demoState [Op.createLead 1 "hi" 0 2025 1 1]) 1).map
      (fun l => l.ticketID) = some "2025-0101" ∧
    (findLead (run demoState [Op.createLead 1 "hi" 0 2025 1 1, Op.deleteLead 1,
        Op.createLead 2 "again" 5 2025 1 1]) 2).map (fun l => l.ticketID) =
      some "2025-0101" := by
  decide

end Hubly
